import Mathlib

/-!
Verification of the metadata filter expression system in
`src/langchain-core/src/filter.ts`: the operand model (`Key`, `Value`,
`Expression`, `Group`), the fluent `FilterExpressionBuilder`, the negation
rewrite `negateOperand` with its `TYPE_NEGATION_MAP`, and the conversion
walk of `BaseFilterExpressionConverter` instantiated with the reference
dialect of `TestFilterExpressionConverter`
(`src/langchain-core/src/tests/filter.test.ts`): keys rendered as
`'$.<key>'`, groups as `(`/`)`, lists as `[`/`]` with `,` separator.

Modelling choices:
* TypeScript `number` values are modelled as `Int` (every number in the
  specification and the tests is an integer).
* The optional right operand (`right?: Operand`) is modelled by a
  distinguished leaf constructor `Operand.undef` standing for the
  JavaScript value `undefined`, which at runtime flows through the same
  dispatch as any operand: it fails every `instanceof` test, and
  dereferencing `.constructor` on it raises a `TypeError`.
* The mutable `StringBuilder` buffer is modelled by returning the
  accumulated string; a thrown `Error` is modelled by `Except.error`
  (a throw abandons the buffer, which the `Except` monad models exactly).
-/

/-- The `Operator` const enum of filter.ts (AND, OR, EQ, NE, GT, GTE, LT,
LTE, IN, NIN, NOT). -/
inductive Operator where
  | AND
  | OR
  | EQ
  | NE
  | GT
  | GTE
  | LT
  | LTE
  | IN
  | NIN
  | NOT
deriving DecidableEq, Repr

/-- A scalar filter value: `number | string | boolean` (numbers modelled
as integers). -/
inductive Scalar where
  | num (n : Int)
  | str (s : String)
  | bool (b : Bool)
deriving DecidableEq, Repr

/-- The payload of a `Value` node: a scalar or a homogeneous array of
scalars (`number | string | boolean | number[] | string[] | boolean[]`). -/
inductive FValue where
  | scalar (s : Scalar)
  | arr (xs : List Scalar)
deriving DecidableEq, Repr

/-- JavaScript truthiness of a filter value, as used by the builder's
`value ? new Value(value) : undefined`: `0`, `""` and `false` are falsy;
every array (including the empty array) is truthy. -/
def truthy : FValue → Bool
  | .scalar (.num n) => n != 0
  | .scalar (.str s) => s != ""
  | .scalar (.bool b) => b
  | .arr _ => true

/-- The `Operand` union of filter.ts: `Key | Value | Expression | Group`,
as one inductive so the runtime `instanceof` / constructor-name dispatch
of the source becomes pattern matching.  `Expression` carries an operator
tag, a left operand and a right operand which may be `undef` (the
JavaScript `undefined` of the optional `right?: Operand` field); `Group`
wraps its content (typed `Expression` in the source, but the casts are
erased at runtime, so the content is any operand). -/
inductive Operand where
  | key (k : String)
  | value (v : FValue)
  | undef
  | expr (type : Operator) (left : Operand) (right : Operand)
  | group (content : Operand)
deriving DecidableEq, Repr

namespace FilterExpressionBuilder

/-- `FilterExpressionBuilder.eq`: `new Expression(EQ, new Key(key),
value ? new Value(value) : undefined)`. -/
def eq (key : String) (value : FValue) : Operand :=
  .expr .EQ (.key key) (if truthy value then .value value else .undef)

/-- `FilterExpressionBuilder.ne`. -/
def ne (key : String) (value : FValue) : Operand :=
  .expr .NE (.key key) (if truthy value then .value value else .undef)

/-- `FilterExpressionBuilder.gt`. -/
def gt (key : String) (value : FValue) : Operand :=
  .expr .GT (.key key) (if truthy value then .value value else .undef)

/-- `FilterExpressionBuilder.gte`. -/
def gte (key : String) (value : FValue) : Operand :=
  .expr .GTE (.key key) (if truthy value then .value value else .undef)

/-- `FilterExpressionBuilder.lt`. -/
def lt (key : String) (value : FValue) : Operand :=
  .expr .LT (.key key) (if truthy value then .value value else .undef)

/-- `FilterExpressionBuilder.lte`. -/
def lte (key : String) (value : FValue) : Operand :=
  .expr .LTE (.key key) (if truthy value then .value value else .undef)

/-- `FilterExpressionBuilder.and`. -/
def and (left right : Operand) : Operand :=
  .expr .AND left right

/-- `FilterExpressionBuilder.or`. -/
def or (left right : Operand) : Operand :=
  .expr .OR left right

/-- `FilterExpressionBuilder.in`: `values ? new Value(values) : undefined`
(every array is truthy in JavaScript, so the right operand is always
present). -/
def inOp (key : String) (values : List Scalar) : Operand :=
  .expr .IN (.key key)
    (if truthy (.arr values) then .value (.arr values) else .undef)

/-- `FilterExpressionBuilder.nin`. -/
def nin (key : String) (values : List Scalar) : Operand :=
  .expr .NIN (.key key)
    (if truthy (.arr values) then .value (.arr values) else .undef)

/-- `FilterExpressionBuilder.group`. -/
def group (content : Operand) : Operand := .group content

/-- `FilterExpressionBuilder.not`: `new Expression(NOT, content)` — the
right operand is left `undefined`. -/
def notOp (content : Operand) : Operand := .expr .NOT content .undef

end FilterExpressionBuilder

/-- The `TYPE_NEGATION_MAP` of filter.ts. -/
def TYPE_NEGATION_MAP : Operator → Operator
  | .AND => .OR
  | .OR => .AND
  | .EQ => .NE
  | .NE => .EQ
  | .GT => .LTE
  | .GTE => .LT
  | .LT => .GTE
  | .LTE => .GT
  | .IN => .NIN
  | .NIN => .IN
  | .NOT => .NOT

/-- Errors thrown by the converter and the negation rewrite.  Each
constructor corresponds to one `throw new Error(...)` site of filter.ts
(`typeErrorUndefined` is the JavaScript `TypeError` raised when the
operand dispatch dereferences `.constructor` on `undefined`). -/
inductive ConvError where
  | unsupportedExpressionType (t : Operator)
  | malformedExpression
  | unexpectedOperandType
  | unknownExpressionType (t : Operator)
  | cannotNegate
  | typeErrorUndefined
deriving DecidableEq, Repr

/-- `BaseFilterExpressionConverter.negateOperand`.  The `Group` branch
negates the content and unwraps one level of grouping before re-wrapping;
the `NOT` branch negates the left operand directly (double negation
cancels); the `AND`/`OR` branch applies `TYPE_NEGATION_MAP` and
recursively negates both children, left first (negating an absent right
operand reaches the final `else` of the source and throws
`Cannot negate operand`); the comparison branch swaps the tag by the
negation map and keeps `left`/`right` unchanged; a bare `Key`/`Value` (or
`undefined`) throws `Cannot negate operand`. -/
def negateOperand : Operand → Except ConvError Operand
  | .group content =>
      match negateOperand content with
      | .error e => .error e
      | .ok inEx =>
          match inEx with
          | .group c => .ok (.group c)
          | e => .ok (.group e)
  | .expr t left right =>
      match t with
      | .NOT => negateOperand left
      | .AND | .OR =>
          match negateOperand left with
          | .error e => .error e
          | .ok l =>
              match negateOperand right with
              | .error e => .error e
              | .ok r => .ok (.expr (TYPE_NEGATION_MAP t) l r)
      | _ => .ok (.expr (TYPE_NEGATION_MAP t) left right)
  | .key _ => .error .cannotNegate
  | .value _ => .error .cannotNegate
  | .undef => .error .cannotNegate

/-- Size of an operand tree (number of nodes); the termination measure of
the conversion walk. -/
def opSize : Operand → Nat
  | .key _ => 1
  | .value _ => 1
  | .undef => 1
  | .expr _ l r => opSize l + opSize r + 1
  | .group c => opSize c + 1

/-- The negation rewrite never grows the tree: if `negateOperand o`
succeeds with `r` then `opSize r ≤ opSize o`. -/
theorem negate_size_le (o : Operand) :
    ∀ r, negateOperand o = .ok r → opSize r ≤ opSize o := by
  induction o with
  | key k => intro r h; simp [negateOperand] at h
  | value v => intro r h; simp [negateOperand] at h
  | undef => intro r h; simp [negateOperand] at h
  | group c ih =>
      intro r h
      simp only [negateOperand] at h
      cases hq : negateOperand c with
      | error e => rw [hq] at h; cases h
      | ok inEx =>
          rw [hq] at h
          have hle := ih _ hq
          cases inEx with
          | group d =>
              simp only at h
              cases h
              simp only [opSize] at hle ⊢
              omega
          | key a => cases h; simp only [opSize] at hle ⊢; omega
          | value a => cases h; simp only [opSize] at hle ⊢; omega
          | undef => cases h; simp only [opSize] at hle ⊢; omega
          | expr a b c2 => cases h; simp only [opSize] at hle ⊢; omega
  | expr t l r ihl ihr =>
      intro res h
      cases t with
      | NOT =>
          simp only [negateOperand] at h
          have := ihl _ h
          simp only [opSize]
          omega
      | AND =>
          simp only [negateOperand] at h
          cases hl : negateOperand l with
          | error e => rw [hl] at h; cases h
          | ok l2 =>
              rw [hl] at h
              cases hr : negateOperand r with
              | error e => rw [hr] at h; cases h
              | ok r2 =>
                  rw [hr] at h
                  cases h
                  have h1 := ihl _ hl
                  have h2 := ihr _ hr
                  simp only [opSize]
                  omega
      | OR =>
          simp only [negateOperand] at h
          cases hl : negateOperand l with
          | error e => rw [hl] at h; cases h
          | ok l2 =>
              rw [hl] at h
              cases hr : negateOperand r with
              | error e => rw [hr] at h; cases h
              | ok r2 =>
                  rw [hr] at h
                  cases h
                  have h1 := ihl _ hl
                  have h2 := ihr _ hr
                  simp only [opSize]
                  omega
      | EQ => simp only [negateOperand] at h; cases h; simp [opSize]
      | NE => simp only [negateOperand] at h; cases h; simp [opSize]
      | GT => simp only [negateOperand] at h; cases h; simp [opSize]
      | GTE => simp only [negateOperand] at h; cases h; simp [opSize]
      | LT => simp only [negateOperand] at h; cases h; simp [opSize]
      | LTE => simp only [negateOperand] at h; cases h; simp [opSize]
      | IN => simp only [negateOperand] at h; cases h; simp [opSize]
      | NIN => simp only [negateOperand] at h; cases h; simp [opSize]

/-- `TestFilterExpressionConverter.convertKeyToContext`: renders a key as
`'$.<key>'` (the reference dialect's JSON-path style). -/
def convertKeyToContext (k : String) : String := "'$." ++ k ++ "'"

/-- `BaseFilterExpressionConverter.convertSingleValueToContext`: strings
are wrapped in single quotes, numbers and booleans rendered via
`toString`. -/
def convertSingleValueToContext : Scalar → String
  | .str s => "'" ++ s ++ "'"
  | .num n => toString n
  | .bool b => toString b

/-- `writeValueRangeStart` (default hook): `[`. -/
def writeValueRangeStart : String := "["

/-- `writeValueRangeEnd` (default hook): `]`. -/
def writeValueRangeEnd : String := "]"

/-- `writeValueRangeSeparator` (default hook): `,`. -/
def writeValueRangeSeparator : String := ","

/-- `writeGroupStart` (reference dialect): `(`. -/
def writeGroupStart : String := "("

/-- `writeGroupEnd` (reference dialect): `)`. -/
def writeGroupEnd : String := ")"

/-- The loop body of `convertValueToContext` over an array value: each
element is rendered by `convertSingleValueToContext`, with
`writeValueRangeSeparator` appended after every element except the last. -/
def convertArrayToContext : List Scalar → String
  | [] => ""
  | [x] => convertSingleValueToContext x
  | x :: xs =>
      convertSingleValueToContext x ++ writeValueRangeSeparator
        ++ convertArrayToContext xs

/-- `BaseFilterExpressionConverter.convertValueToContext`: an array value
is rendered between `writeValueRangeStart` and `writeValueRangeEnd` with
the separator interleaved; a scalar is rendered directly. -/
def convertValueToContext : FValue → String
  | .arr xs => writeValueRangeStart ++ convertArrayToContext xs ++ writeValueRangeEnd
  | .scalar s => convertSingleValueToContext s

/-- The `symbolMap` object literal of
`BaseFilterExpressionConverter.convertSymbolToContext`.  Note that the
`NOT` tag has an entry, `" NOT IN "`, the same token as `NIN`. -/
def symbolMap : Operator → String
  | .AND => " AND "
  | .OR => " OR "
  | .EQ => " = "
  | .NE => " != "
  | .LT => " < "
  | .LTE => " <= "
  | .GT => " > "
  | .GTE => " >= "
  | .IN => " IN "
  | .NOT => " NOT IN "
  | .NIN => " NOT IN "

/-- `BaseFilterExpressionConverter.convertSymbolToContext`: appends
`symbolMap[exp.type]`; a missing or falsy (empty-string) entry would throw
`Unsupported expression type`.  The enum is closed and every entry of
`symbolMap` is non-empty, so the throw is unreachable here. -/
def convertSymbolToContext (t : Operator) : Except ConvError String :=
  if symbolMap t = "" then .error (.unsupportedExpressionType t)
  else .ok (symbolMap t)

/-- The `exp.right instanceof Value` test of the structural validation in
`convertOperandToContext`. -/
def isValue : Operand → Bool
  | .value _ => true
  | _ => false

/-- `BaseFilterExpressionConverter.convertOperandToContext` under the
reference dialect: dispatch on the operand's dynamic kind.  A `Group`
renders as `writeGroupStart`, its content, `writeGroupEnd` (the private
`convertGroupToContext`); a `Key` via `convertKeyToContext`; a `Value` via
`convertValueToContext`; `undefined` raises a `TypeError` (dereferencing
`.constructor`).  For an `Expression`: the structural check rejects a
non-`NOT`/`AND`/`OR` tag whose right operand is not a `Value` with
`Non AND/OR expression must have Value right argument!`; a `NOT` tag goes
through `convertNotExpressionToContext`, which converts
`negateOperand(expression)`; any other tag is rendered infix — left
operand, operator symbol, right operand — per the test subclass's
`convertExpressionToContext` (the non-null assertion `expression.right!`
is erased at runtime, so an absent right reaches the dispatch as
`undefined`). -/
def convertOperandToContext : Operand → Except ConvError String
  | .group content =>
      match convertOperandToContext content with
      | .error e => .error e
      | .ok s => .ok (writeGroupStart ++ s ++ writeGroupEnd)
  | .key k => .ok (convertKeyToContext k)
  | .value v => .ok (convertValueToContext v)
  | .undef => .error .typeErrorUndefined
  | .expr t left right =>
      if t ≠ .NOT ∧ t ≠ .AND ∧ t ≠ .OR ∧ isValue right = false then
        .error .malformedExpression
      else if h : t = .NOT then
        match hn : negateOperand (.expr t left right) with
        | .error e => .error e
        | .ok neg => convertOperandToContext neg
      else
        match convertOperandToContext left with
        | .error e => .error e
        | .ok ls =>
            match convertSymbolToContext t with
            | .error e => .error e
            | .ok ss =>
                match convertOperandToContext right with
                | .error e => .error e
                | .ok rs => .ok (ls ++ ss ++ rs)
termination_by o => opSize o
decreasing_by
  · simp [opSize]
  · subst h
    have heq : negateOperand (.expr Operator.NOT left right)
        = negateOperand left := by simp [negateOperand]
    rw [heq] at hn
    have := negate_size_le left neg hn
    simp only [opSize]
    omega
  · simp [opSize]
    omega
  · simp [opSize]
    omega

/-- `TestFilterExpressionConverter.convertExpressionToContext`: renders the
left operand, then the operator symbol, then the right operand. -/
def convertExpressionToContext (t : Operator) (left right : Operand) :
    Except ConvError String :=
  match convertOperandToContext left with
  | .error e => .error e
  | .ok ls =>
      match convertSymbolToContext t with
      | .error e => .error e
      | .ok ss =>
          match convertOperandToContext right with
          | .error e => .error e
          | .ok rs => .ok (ls ++ ss ++ rs)

/-- `BaseFilterExpressionConverter.convertNotExpressionToContext`: converts
the negation of the whole `NOT` expression. -/
def convertNotExpressionToContext (expression : Operand) :
    Except ConvError String :=
  match negateOperand expression with
  | .error e => .error e
  | .ok neg => convertOperandToContext neg

/-- `BaseFilterExpressionConverter.convertExpression`: allocates a fresh
buffer, converts the operand, returns the accumulated string. -/
def convertExpression (expression : Operand) : Except ConvError String :=
  convertOperandToContext expression

/-- The eight comparison/membership operator tags (EQ, NE, GT, GTE, LT,
LTE, IN, NIN) — the tags subject to the structural right-operand check and
the leaf cases of the negation rewrite. -/
def isComparison : Operator → Bool
  | .EQ | .NE | .GT | .GTE | .LT | .LTE | .IN | .NIN => true
  | _ => false

/-- `o` is a `Group` whose content is not itself a `Group`. -/
def isSingleGroup : Operand → Bool
  | .group (.group _) => false
  | .group _ => true
  | _ => false

/-- A `NOT`-free, `Group`-free tree built from `AND`/`OR` combinators over
leaf comparisons (`Key` left, `Value` right). -/
def goodTree : Operand → Bool
  | .expr .AND l r => goodTree l && goodTree r
  | .expr .OR l r => goodTree l && goodTree r
  | .expr t (.key _) (.value _) => isComparison t
  | _ => false

/-- Claim C1: under the reference dialect, `convertExpression` applied to
`not(and(eq("name","martin"), group(or(eq("firstname","john"),
eq("firstname","jack")))))` returns exactly
`'$.name' != 'martin' OR ('$.firstname' != 'john' AND '$.firstname' != 'jack')`. -/
theorem convertExpression_notAndGroup_scenario :
    convertExpression
      (FilterExpressionBuilder.notOp
        (FilterExpressionBuilder.and
          (FilterExpressionBuilder.eq "name" (.scalar (.str "martin")))
          (FilterExpressionBuilder.group
            (FilterExpressionBuilder.or
              (FilterExpressionBuilder.eq "firstname" (.scalar (.str "john")))
              (FilterExpressionBuilder.eq "firstname" (.scalar (.str "jack")))))))
      = .ok "'$.name' != 'martin' OR ('$.firstname' != 'john' AND '$.firstname' != 'jack')" := by
  simp +decide [convertExpression, convertOperandToContext, negateOperand,
    TYPE_NEGATION_MAP, convertSymbolToContext, symbolMap, isValue,
    convertKeyToContext, convertValueToContext, convertSingleValueToContext,
    writeGroupStart, writeGroupEnd, truthy, FilterExpressionBuilder.eq,
    FilterExpressionBuilder.and, FilterExpressionBuilder.or,
    FilterExpressionBuilder.group, FilterExpressionBuilder.notOp]

/-- Claim C2, counterexample: calling `convertSymbolToContext` with the
`NOT` tag does not fail — the default symbol table has the entry
`NOT ↦ " NOT IN "`, so the call succeeds and appends that token. -/
theorem convertSymbolToContext_NOT_returns_ok :
    convertSymbolToContext .NOT = .ok " NOT IN "
      ∧ convertSymbolToContext .NOT
          ≠ .error (.unsupportedExpressionType .NOT) := by
  refine ⟨rfl, ?_⟩
  intro hcontra
  rw [show convertSymbolToContext .NOT = .ok " NOT IN " from rfl] at hcontra
  cases hcontra

/-- Claim C2, amended: `convertSymbolToContext` succeeds for every
operator tag (the symbol table is total and has no falsy entry), and the
`NOT` tag is mapped to the token `" NOT IN "`, identical to `NIN`'s
symbol, rather than raising an unsupported-operator error. -/
theorem convertSymbolToContext_total :
    (∀ t, convertSymbolToContext t = .ok (symbolMap t))
      ∧ symbolMap .NOT = " NOT IN " ∧ symbolMap .NIN = " NOT IN " := by
  refine ⟨fun t => ?_, rfl, rfl⟩
  cases t <;> rfl

/-- Claim C3: `negateOperand` rewrites `Expression(AND, a, b)` to
`Expression(OR, negateOperand(a), negateOperand(b))` and
`Expression(OR, a, b)` to `Expression(AND, negateOperand(a),
negateOperand(b))` (De Morgan push-down), whenever the child negations
succeed. -/
theorem negateOperand_deMorgan (a b a2 b2 : Operand)
    (ha : negateOperand a = .ok a2) (hb : negateOperand b = .ok b2) :
    negateOperand (.expr .AND a b) = .ok (.expr .OR a2 b2)
      ∧ negateOperand (.expr .OR a b) = .ok (.expr .AND a2 b2) := by
  constructor <;> simp [negateOperand, ha, hb, TYPE_NEGATION_MAP]

/-- Witness for C3 at concrete children `eq("a",1)` and `gt("b",2)`. -/
theorem negateOperand_deMorgan_witness :
    negateOperand (.expr .AND (.expr .EQ (.key "a") (.value (.scalar (.num 1))))
                              (.expr .GT (.key "b") (.value (.scalar (.num 2)))))
      = .ok (.expr .OR (.expr .NE (.key "a") (.value (.scalar (.num 1))))
                       (.expr .LTE (.key "b") (.value (.scalar (.num 2)))))
    ∧ negateOperand (.expr .OR (.expr .EQ (.key "a") (.value (.scalar (.num 1))))
                               (.expr .GT (.key "b") (.value (.scalar (.num 2)))))
      = .ok (.expr .AND (.expr .NE (.key "a") (.value (.scalar (.num 1))))
                        (.expr .LTE (.key "b") (.value (.scalar (.num 2))))) :=
  negateOperand_deMorgan _ _ _ _ rfl rfl

/-- Claim C4: for every key and every falsy scalar value (`0`, `""` or
`false`), each builder comparison method (eq, ne, gt, gte, lt, lte)
returns an `Expression` whose right operand is absent (`undefined`)
instead of `Value(v)`, and converting that expression fails with the
malformed-expression error instead of rendering the value. -/
theorem builder_falsy_right_absent (k : String) (v : FValue)
    (hv : truthy v = false) :
    (FilterExpressionBuilder.eq k v = .expr .EQ (.key k) .undef
        ∧ convertExpression (FilterExpressionBuilder.eq k v)
            = .error .malformedExpression)
      ∧ (FilterExpressionBuilder.ne k v = .expr .NE (.key k) .undef
        ∧ convertExpression (FilterExpressionBuilder.ne k v)
            = .error .malformedExpression)
      ∧ (FilterExpressionBuilder.gt k v = .expr .GT (.key k) .undef
        ∧ convertExpression (FilterExpressionBuilder.gt k v)
            = .error .malformedExpression)
      ∧ (FilterExpressionBuilder.gte k v = .expr .GTE (.key k) .undef
        ∧ convertExpression (FilterExpressionBuilder.gte k v)
            = .error .malformedExpression)
      ∧ (FilterExpressionBuilder.lt k v = .expr .LT (.key k) .undef
        ∧ convertExpression (FilterExpressionBuilder.lt k v)
            = .error .malformedExpression)
      ∧ (FilterExpressionBuilder.lte k v = .expr .LTE (.key k) .undef
        ∧ convertExpression (FilterExpressionBuilder.lte k v)
            = .error .malformedExpression) := by
  refine ⟨⟨?_, ?_⟩, ⟨?_, ?_⟩, ⟨?_, ?_⟩, ⟨?_, ?_⟩, ⟨?_, ?_⟩, ⟨?_, ?_⟩⟩ <;>
    simp +decide [FilterExpressionBuilder.eq, FilterExpressionBuilder.ne,
      FilterExpressionBuilder.gt, FilterExpressionBuilder.gte,
      FilterExpressionBuilder.lt, FilterExpressionBuilder.lte, hv,
      convertExpression, convertOperandToContext, isValue]

/-- Claim C5: the structural validation of `convertOperandToContext` —
an `Expression` with a comparison/membership tag whose right operand is
not a `Value` fails with the malformed-expression error, while for the
tags `NOT`, `AND` and `OR` the check never fires: the walk delegates to
the negation path (`convertNotExpressionToContext`) or to the infix
rendering (`convertExpressionToContext`) regardless of the right
operand's shape. -/
theorem convertOperand_structural_check (t : Operator) (l r : Operand) :
    (isComparison t = true → isValue r = false →
        convertOperandToContext (.expr t l r) = .error .malformedExpression)
      ∧ convertOperandToContext (.expr .AND l r)
          = convertExpressionToContext .AND l r
      ∧ convertOperandToContext (.expr .OR l r)
          = convertExpressionToContext .OR l r
      ∧ convertOperandToContext (.expr .NOT l r)
          = convertNotExpressionToContext (.expr .NOT l r) := by
  refine ⟨fun ht hr => ?_, ?_, ?_, ?_⟩
  · rw [convertOperandToContext]
    cases t <;> simp_all +decide [isComparison]
  · rw [convertOperandToContext, convertExpressionToContext]
    simp +decide
  · rw [convertOperandToContext, convertExpressionToContext]
    simp +decide
  · rw [convertOperandToContext, convertNotExpressionToContext]
    simp +decide
    cases hq : negateOperand (.expr .NOT l r) <;> simp

/-- Witness for C5: an `EQ` expression whose right operand is a `Key`
fails with the malformed-expression error. -/
theorem convertOperand_structural_check_witness :
    convertOperandToContext (.expr .EQ (.key "a") (.key "b"))
      = .error .malformedExpression :=
  (convertOperand_structural_check .EQ (.key "a") (.key "b")).1 rfl rfl

/-- Claim C6: on a leaf comparison (comparison/membership tag, `Key`
left, `Value` right) the negation rewrite is an involution — negating
twice restores the original expression, since the inversion table
EQ↔NE, GT↔LTE, GTE↔LT, IN↔NIN is an involution and `left`/`right` are
preserved. -/
theorem negateOperand_leaf_involution (t : Operator) (k : String) (v : FValue)
    (ht : isComparison t = true) :
    (negateOperand (.expr t (.key k) (.value v))).bind negateOperand
      = .ok (.expr t (.key k) (.value v)) := by
  cases t <;>
    simp_all +decide [negateOperand, TYPE_NEGATION_MAP, isComparison,
      Except.bind]

/-- Witness for C6 at `in("a",[2015,2018])`. -/
theorem negateOperand_leaf_involution_witness :
    (negateOperand (.expr .IN (.key "a")
        (.value (.arr [.num 2015, .num 2018])))).bind negateOperand
      = .ok (.expr .IN (.key "a") (.value (.arr [.num 2015, .num 2018]))) :=
  negateOperand_leaf_involution .IN "a" (.arr [.num 2015, .num 2018]) rfl

/-- `Group` invariant of the negation rewrite, proved for every operand:
whenever `negateOperand` succeeds with a `Group` result, the group's
content is not itself a `Group` (the unwrap step in the `Group` branch
maintains the invariant globally). -/
theorem negateOperand_ok_group_content (o : Operand) :
    ∀ z, negateOperand o = .ok (.group z) → ∀ w, z ≠ .group w := by
  induction o with
  | key k => intro z h; simp [negateOperand] at h
  | value v => intro z h; simp [negateOperand] at h
  | undef => intro z h; simp [negateOperand] at h
  | group c ih =>
      intro z h
      simp only [negateOperand] at h
      cases hq : negateOperand c with
      | error e => rw [hq] at h; cases h
      | ok inEx =>
          rw [hq] at h
          cases inEx with
          | group d =>
              simp only [Except.ok.injEq, Operand.group.injEq] at h
              subst h
              exact ih d hq
          | key a =>
              simp only [Except.ok.injEq, Operand.group.injEq] at h
              subst h
              intro w hw
              cases hw
          | value a =>
              simp only [Except.ok.injEq, Operand.group.injEq] at h
              subst h
              intro w hw
              cases hw
          | undef =>
              simp only [Except.ok.injEq, Operand.group.injEq] at h
              subst h
              intro w hw
              cases hw
          | expr a b c2 =>
              simp only [Except.ok.injEq, Operand.group.injEq] at h
              subst h
              intro w hw
              cases hw
  | expr t l r ihl ihr =>
      intro z h
      cases t with
      | NOT =>
          simp only [negateOperand] at h
          exact ihl z h
      | AND =>
          simp only [negateOperand] at h
          cases hl : negateOperand l with
          | error e => rw [hl] at h; cases h
          | ok l2 =>
              rw [hl] at h
              cases hr : negateOperand r with
              | error e => rw [hr] at h; cases h
              | ok r2 => rw [hr] at h; simp at h
      | OR =>
          simp only [negateOperand] at h
          cases hl : negateOperand l with
          | error e => rw [hl] at h; cases h
          | ok l2 =>
              rw [hl] at h
              cases hr : negateOperand r with
              | error e => rw [hr] at h; cases h
              | ok r2 => rw [hr] at h; simp at h
      | EQ => simp [negateOperand] at h
      | NE => simp [negateOperand] at h
      | GT => simp [negateOperand] at h
      | GTE => simp [negateOperand] at h
      | LT => simp [negateOperand] at h
      | LTE => simp [negateOperand] at h
      | IN => simp [negateOperand] at h
      | NIN => simp [negateOperand] at h

/-- Claim C7: whenever negating a `Group` succeeds, the result is a
`Group` whose content is not itself a `Group` — when negating the
content yields another `Group`, one level is unwrapped before
re-wrapping, so repeated negation never produces nested groups. -/
theorem negateOperand_group_collapse (c r : Operand)
    (h : negateOperand (.group c) = .ok r) :
    isSingleGroup r = true := by
  simp only [negateOperand] at h
  cases hq : negateOperand c with
  | error e => rw [hq] at h; cases h
  | ok inEx =>
      rw [hq] at h
      cases inEx with
      | group d =>
          simp only [Except.ok.injEq] at h
          subst h
          have hd := negateOperand_ok_group_content c d hq
          cases d with
          | group w => exact absurd rfl (hd w)
          | key a => rfl
          | value a => rfl
          | undef => rfl
          | expr a b c2 => rfl
      | key a => cases h; rfl
      | value a => cases h; rfl
      | undef => cases h; rfl
      | expr a b c2 => cases h; rfl

/-- Witness for C7: negating a doubly nested group collapses to a single
group. -/
theorem negateOperand_group_collapse_witness :
    negateOperand (.group (.group (.expr .EQ (.key "a")
        (.value (.scalar (.num 1))))))
      = .ok (.group (.expr .NE (.key "a") (.value (.scalar (.num 1)))))
    ∧ isSingleGroup (.group (.expr .NE (.key "a")
        (.value (.scalar (.num 1))))) = true :=
  ⟨rfl, negateOperand_group_collapse
    (.group (.expr .EQ (.key "a") (.value (.scalar (.num 1)))))
    (.group (.expr .NE (.key "a") (.value (.scalar (.num 1))))) rfl⟩

/-- Witness for C4 at key `"a"` and the falsy value `0`. -/
theorem builder_falsy_right_absent_witness :
    (FilterExpressionBuilder.eq "a" (.scalar (.num 0))
        = .expr .EQ (.key "a") .undef
      ∧ convertExpression (FilterExpressionBuilder.eq "a" (.scalar (.num 0)))
          = .error .malformedExpression)
    ∧ (FilterExpressionBuilder.ne "a" (.scalar (.num 0))
        = .expr .NE (.key "a") .undef
      ∧ convertExpression (FilterExpressionBuilder.ne "a" (.scalar (.num 0)))
          = .error .malformedExpression)
    ∧ (FilterExpressionBuilder.gt "a" (.scalar (.num 0))
        = .expr .GT (.key "a") .undef
      ∧ convertExpression (FilterExpressionBuilder.gt "a" (.scalar (.num 0)))
          = .error .malformedExpression)
    ∧ (FilterExpressionBuilder.gte "a" (.scalar (.num 0))
        = .expr .GTE (.key "a") .undef
      ∧ convertExpression (FilterExpressionBuilder.gte "a" (.scalar (.num 0)))
          = .error .malformedExpression)
    ∧ (FilterExpressionBuilder.lt "a" (.scalar (.num 0))
        = .expr .LT (.key "a") .undef
      ∧ convertExpression (FilterExpressionBuilder.lt "a" (.scalar (.num 0)))
          = .error .malformedExpression)
    ∧ (FilterExpressionBuilder.lte "a" (.scalar (.num 0))
        = .expr .LTE (.key "a") .undef
      ∧ convertExpression (FilterExpressionBuilder.lte "a" (.scalar (.num 0)))
          = .error .malformedExpression) :=
  builder_falsy_right_absent "a" (.scalar (.num 0)) rfl


/-- The accumulator step of `String.intercalate`: pushing one more element
through the accumulating loop prepends the accumulator and one
separator. -/
theorem intercalate_go_cons (sep : String) (t : List String) :
    ∀ acc b, String.intercalate.go acc sep (b :: t)
      = acc ++ sep ++ String.intercalate.go b sep t := by
  induction t with
  | nil => intro acc b; rfl
  | cons c cs ih =>
      intro acc b
      show String.intercalate.go (acc ++ sep ++ b) sep (c :: cs)
        = acc ++ sep ++ String.intercalate.go b sep (c :: cs)
      rw [ih (acc ++ sep ++ b) c, ih b c]
      simp [String.append_assoc]

/-- The rendering loop of `convertValueToContext` writes the separator
between consecutive elements and not after the last: it agrees with
`String.intercalate` over the individually rendered elements. -/
theorem convertArrayToContext_intercalate (xs : List Scalar) :
    convertArrayToContext xs
      = String.intercalate writeValueRangeSeparator
          (xs.map convertSingleValueToContext) := by
  induction xs with
  | nil => rfl
  | cons x t ih =>
      cases t with
      | nil => rfl
      | cons y ys =>
          rw [show convertArrayToContext (x :: y :: ys)
              = convertSingleValueToContext x ++ writeValueRangeSeparator
                  ++ convertArrayToContext (y :: ys) from rfl,
            ih]
          rw [show String.intercalate writeValueRangeSeparator
                (List.map convertSingleValueToContext (x :: y :: ys))
              = String.intercalate.go (convertSingleValueToContext x)
                  writeValueRangeSeparator
                  (List.map convertSingleValueToContext (y :: ys)) from rfl]
          rw [show List.map convertSingleValueToContext (y :: ys)
              = convertSingleValueToContext y
                  :: List.map convertSingleValueToContext ys from rfl]
          rw [intercalate_go_cons]
          rfl

/-- Claim C8: under the reference dialect `in("a",[2015,2018])` renders
exactly as `'$.a' IN [2015,2018]` and `nin("a",[2015,2018])` as
`'$.a' NOT IN [2015,2018]`; in general an array value is rendered between
the range-start and range-end delimiters with the separator written
between consecutive elements and not after the last. -/
theorem convertExpression_in_nin_list :
    convertExpression (FilterExpressionBuilder.inOp "a" [.num 2015, .num 2018])
        = .ok "'$.a' IN [2015,2018]"
      ∧ convertExpression
            (FilterExpressionBuilder.nin "a" [.num 2015, .num 2018])
          = .ok "'$.a' NOT IN [2015,2018]"
      ∧ ∀ xs, convertValueToContext (.arr xs)
          = writeValueRangeStart
              ++ String.intercalate writeValueRangeSeparator
                  (xs.map convertSingleValueToContext)
              ++ writeValueRangeEnd := by
  refine ⟨?_, ?_, fun xs => ?_⟩
  · simp +decide [convertExpression, convertOperandToContext,
      convertSymbolToContext, symbolMap, isValue, convertKeyToContext,
      convertValueToContext, convertArrayToContext,
      convertSingleValueToContext, writeValueRangeStart, writeValueRangeEnd,
      writeValueRangeSeparator, truthy, FilterExpressionBuilder.inOp]
  · simp +decide [convertExpression, convertOperandToContext,
      convertSymbolToContext, symbolMap, isValue, convertKeyToContext,
      convertValueToContext, convertArrayToContext,
      convertSingleValueToContext, writeValueRangeStart, writeValueRangeEnd,
      writeValueRangeSeparator, truthy, FilterExpressionBuilder.nin]
  · rw [show convertValueToContext (.arr xs)
        = writeValueRangeStart ++ convertArrayToContext xs
            ++ writeValueRangeEnd from rfl,
      convertArrayToContext_intercalate]

/-- Claim C9: `negateOperand` is an involution on every `NOT`-free,
`Group`-free tree built from `AND`/`OR` combinators over leaf comparisons
(`Key` left, `Value` right): negating twice restores the tree, for
arbitrarily nested `AND`/`OR` shapes. -/
theorem negateOperand_involution_goodTree (o : Operand)
    (h : goodTree o = true) :
    (negateOperand o).bind negateOperand = .ok o := by
  induction o with
  | key k => simp [goodTree] at h
  | value v => simp [goodTree] at h
  | undef => simp [goodTree] at h
  | group c ih => simp [goodTree] at h
  | expr t l r ihl ihr =>
      cases t with
      | AND =>
          rw [goodTree] at h
          simp only [Bool.and_eq_true] at h
          obtain ⟨hl, hr⟩ := h
          have Hl := ihl hl
          have Hr := ihr hr
          cases hql : negateOperand l with
          | error e => rw [hql] at Hl; simp [Except.bind] at Hl
          | ok l2 =>
              cases hqr : negateOperand r with
              | error e => rw [hqr] at Hr; simp [Except.bind] at Hr
              | ok r2 =>
                  rw [hql] at Hl
                  rw [hqr] at Hr
                  simp only [Except.bind] at Hl Hr
                  simp [negateOperand, hql, hqr, TYPE_NEGATION_MAP,
                    Except.bind, Hl, Hr]
      | OR =>
          rw [goodTree] at h
          simp only [Bool.and_eq_true] at h
          obtain ⟨hl, hr⟩ := h
          have Hl := ihl hl
          have Hr := ihr hr
          cases hql : negateOperand l with
          | error e => rw [hql] at Hl; simp [Except.bind] at Hl
          | ok l2 =>
              cases hqr : negateOperand r with
              | error e => rw [hqr] at Hr; simp [Except.bind] at Hr
              | ok r2 =>
                  rw [hql] at Hl
                  rw [hqr] at Hr
                  simp only [Except.bind] at Hl Hr
                  simp [negateOperand, hql, hqr, TYPE_NEGATION_MAP,
                    Except.bind, Hl, Hr]
      | NOT => cases l <;> cases r <;> simp [goodTree, isComparison] at h
      | EQ =>
          clear ihl ihr
          cases l <;> cases r <;>
            simp_all [goodTree, isComparison, negateOperand,
              TYPE_NEGATION_MAP, Except.bind]
      | NE =>
          clear ihl ihr
          cases l <;> cases r <;>
            simp_all [goodTree, isComparison, negateOperand,
              TYPE_NEGATION_MAP, Except.bind]
      | GT =>
          clear ihl ihr
          cases l <;> cases r <;>
            simp_all [goodTree, isComparison, negateOperand,
              TYPE_NEGATION_MAP, Except.bind]
      | GTE =>
          clear ihl ihr
          cases l <;> cases r <;>
            simp_all [goodTree, isComparison, negateOperand,
              TYPE_NEGATION_MAP, Except.bind]
      | LT =>
          clear ihl ihr
          cases l <;> cases r <;>
            simp_all [goodTree, isComparison, negateOperand,
              TYPE_NEGATION_MAP, Except.bind]
      | LTE =>
          clear ihl ihr
          cases l <;> cases r <;>
            simp_all [goodTree, isComparison, negateOperand,
              TYPE_NEGATION_MAP, Except.bind]
      | IN =>
          clear ihl ihr
          cases l <;> cases r <;>
            simp_all [goodTree, isComparison, negateOperand,
              TYPE_NEGATION_MAP, Except.bind]
      | NIN =>
          clear ihl ihr
          cases l <;> cases r <;>
            simp_all [goodTree, isComparison, negateOperand,
              TYPE_NEGATION_MAP, Except.bind]

/-- Witness for C9 at the nested tree
`and(or(eq("a",1), ne("b",2)), gt("c",3))`. -/
theorem negateOperand_involution_goodTree_witness :
    (negateOperand (.expr .AND
        (.expr .OR (.expr .EQ (.key "a") (.value (.scalar (.num 1))))
                   (.expr .NE (.key "b") (.value (.scalar (.num 2)))))
        (.expr .GT (.key "c") (.value (.scalar (.num 3)))))).bind negateOperand
      = .ok (.expr .AND
        (.expr .OR (.expr .EQ (.key "a") (.value (.scalar (.num 1))))
                   (.expr .NE (.key "b") (.value (.scalar (.num 2)))))
        (.expr .GT (.key "c") (.value (.scalar (.num 3))))) :=
  negateOperand_involution_goodTree _ rfl

/-- Claim C10: converting a `Value` wrapping an empty array under the
default hooks renders the two list delimiters with nothing between them
and raises no error; in particular `in("a", [])` renders as
`'$.a' IN []` (the builder keeps the right operand, since an empty array
is truthy in JavaScript). -/
theorem convertExpression_empty_array :
    convertValueToContext (.arr []) = "[]"
      ∧ convertExpression (FilterExpressionBuilder.inOp "a" [])
          = .ok "'$.a' IN []" := by
  refine ⟨rfl, ?_⟩
  simp +decide [convertExpression, convertOperandToContext,
    convertSymbolToContext, symbolMap, isValue, convertKeyToContext,
    convertValueToContext, convertArrayToContext, writeValueRangeStart,
    writeValueRangeEnd, truthy, FilterExpressionBuilder.inOp]
